import Mathlib

/-!
# Shoe-store e-commerce platform: verified model of cart, checkout and order lifecycle

A shallow embedding of the core business logic of the shoe-store web
application, translated from the JavaScript sources:

* `src/shoe-store/shoe-store/src/models/index.js` — Mongoose schemas for
  `Product` and `Order`, including the `pre('save')` hooks that recompute
  `totalStock` and generate `orderNumber`;
* `src/shoe-store/shoe-store/src/routes/cart.js` — session cart routes
  (`add`, `update`, `remove`, `clear`) and `calculateTotals`;
* `src/unnamed/part_005` — order routes: checkout (`POST /api/orders`) and
  cancellation (`POST /api/orders/:id/cancel`).

Conventions of the embedding:

* JavaScript numbers used for money and shoe sizes become `ℚ`
  (`9.99` is written `999/100`, the tax rate `0.08` is `8/100`);
  quantities and stock counts are `Nat`; `soldCount` is `Int` because the
  cancellation route decrements it with `$inc` and nothing clamps it at 0.
* Mongo documents live in an explicit database, `List Product`; `findById`
  becomes `List.find?` on the `id` field and `product.save()` becomes
  `saveProduct`, which also runs the schema's `pre('save')` hook
  (`productPreSave`).
* Each route handler becomes a function returning its new session/database
  state together with an `Option` error; an early `return res.status(4xx)`
  leaves the state it did not yet mutate unchanged, exactly as in the source
  (all mutations in the source happen after the validations).
-/

namespace ShoeStore

/-! ## Product model (`models/index.js`, productSchema) -/

/-- One `(size, stock)` entry of `productSchema.sizes`. -/
structure SizeOption where
  size : ℚ
  stock : Nat
deriving DecidableEq, Repr

/-- One entry of `productSchema.images`. -/
structure Image where
  url : String
  isPrimary : Bool
deriving DecidableEq, Repr

/-- The fields of a `Product` document used by the cart/checkout/cancel flows. -/
structure Product where
  id : Nat
  name : String
  brand : String
  slug : String
  price : ℚ
  salePrice : Option ℚ
  images : List Image
  sizes : List SizeOption
  totalStock : Nat
  soldCount : Int
deriving DecidableEq, Repr

/-- `this.sizes.reduce((sum, s) => sum + s.stock, 0)` from the product
`pre('save')` hook. -/
def sumStock (sizes : List SizeOption) : Nat :=
  sizes.foldl (fun sum s => sum + s.stock) 0

/-- The documented product invariant: the derived `totalStock` field equals the
sum of the per-size stock buckets. -/
def stockInv (p : Product) : Prop :=
  p.totalStock = sumStock p.sizes

instance (p : Product) : Decidable (stockInv p) := by
  unfold stockInv; infer_instance

/-- Virtual `effectivePrice`: `this.salePrice && this.salePrice < this.price ?
this.salePrice : this.price`.  A `salePrice` of `0` is falsy in JavaScript and
therefore does not win. -/
def effectivePrice (p : Product) : ℚ :=
  match p.salePrice with
  | some sp => if sp ≠ 0 ∧ sp < p.price then sp else p.price
  | none => p.price

/-- Virtual `primaryImage`: the image marked `isPrimary`, else the first image,
else a placeholder. -/
def primaryImage (p : Product) : String :=
  match p.images.find? (fun img => img.isPrimary) with
  | some img => img.url
  | none =>
    match p.images with
    | img :: _ => img.url
    | [] => "/images/placeholder.jpg"

/-- Is `c` one of `a`–`z` or `0`–`9`? (after lowercasing, the characters the
slug regex `[^a-z0-9]+` keeps). -/
def isSlugChar (c : Char) : Bool :=
  (97 ≤ c.toNat && c.toNat ≤ 122) || (48 ≤ c.toNat && c.toNat ≤ 57)

/-- `replace(/[^a-z0-9]+/g, '-')`: each maximal run of non-slug characters
becomes a single dash. -/
def collapseRuns : List Char → List Char
  | [] => []
  | c :: rest =>
    if isSlugChar c then c :: collapseRuns rest
    else '-' :: collapseRuns (rest.dropWhile (fun d => !isSlugChar d))
termination_by l => l.length
decreasing_by
  all_goals simp_wf
  all_goals have := (List.dropWhile_sublist (l := rest) (p := fun d => !isSlugChar d)).length_le
  all_goals omega

/-- `replace(/(^-|-$)/g, '')` on the collapsed string (at most one leading and
one trailing dash remain after collapsing, so dropping runs is equivalent). -/
def trimDashes (l : List Char) : List Char :=
  ((l.dropWhile (fun c => c == '-')).reverse.dropWhile (fun c => c == '-')).reverse

/-- Slug generation from the product `pre('save')` hook. -/
def slugify (s : String) : String :=
  String.mk (trimDashes (collapseRuns s.toLower.toList))

/-- The product schema `pre('save')` hook: regenerate the slug when absent
(`isModified('name')` is not modelled: no verified flow saves a renamed
product) and recompute `totalStock` from the size buckets. -/
def productPreSave (p : Product) : Product :=
  let p1 := if p.slug = "" then { p with slug := slugify p.name } else p
  { p1 with totalStock := sumStock p1.sizes }

/-- `Product.findById`: the database is a list of documents, keyed by `id`. -/
def findProduct (db : List Product) (pid : Nat) : Option Product :=
  db.find? (fun p => p.id == pid)

/-- `product.save()`: write the document back by id, after running the
`pre('save')` hook is the caller's duty (`processItems` passes the hook's
output). -/
def saveProduct (db : List Product) (p : Product) : List Product :=
  db.map (fun q => if q.id == p.id then p else q)

/-- The stock of the first size bucket whose `size` equals `sz` (JavaScript
`find`/`findIndex` return the first match). -/
def bucketStock (p : Product) (sz : ℚ) : Option Nat :=
  (p.sizes.find? (fun s => s.size == sz)).map (fun s => s.stock)

/-! ## Session cart (`routes/cart.js`) -/

/-- One line of the session cart, as pushed by `POST /api/cart/add`. -/
structure CartItem where
  productId : Nat
  name : String
  brand : String
  price : ℚ
  originalPrice : ℚ
  size : ℚ
  color : String
  quantity : Nat
  image : String
  slug : String
  maxStock : Nat
deriving DecidableEq, Repr

/-- `req.session.cart`: items plus the derived totals. -/
structure Cart where
  items : List CartItem
  subtotal : ℚ
  shipping : ℚ
  tax : ℚ
  total : ℚ
deriving DecidableEq, Repr

/-- The literal `{ items: [], subtotal: 0, shipping: 0, tax: 0, total: 0 }`
written by `initCart`, `DELETE /api/cart/clear` and the post-checkout reset. -/
def emptyCart : Cart :=
  { items := [], subtotal := 0, shipping := 0, tax := 0, total := 0 }

/-- `calculateTotals` from `routes/cart.js`: recompute `subtotal`, the
`9.99`-or-free `shipping`, the 8% `tax` and the `total`. -/
def calculateTotals (cart : Cart) : Cart :=
  let subtotal := cart.items.foldl (fun sum item => sum + item.price * (item.quantity : ℚ)) 0
  let shipping := if subtotal ≥ 100 then 0 else (999 : ℚ)/100
  let tax := subtotal * ((8 : ℚ)/100)
  { cart with subtotal := subtotal, shipping := shipping, tax := tax,
              total := subtotal + shipping + tax }

/-- Error taxonomy of the cart routes: HTTP 404 (`notFound`), the 400 stock
errors (`outOfStock`), and a thrown exception surfaced as HTTP 500
(`serverError`). -/
inductive CartError where
  | notFound
  | outOfStock
  | serverError
deriving DecidableEq, Repr

/-- The `findIndex` predicate of `POST /api/cart/add`: same product, size and
color.  The request color is `Option String` (`none` models a missing body
field, which `===` never equates with a stored string). -/
def addKey (pid : Nat) (sz : ℚ) (creq : Option String) (item : CartItem) : Bool :=
  item.productId == pid && item.size == sz && some item.color == creq

/-- The `findIndex` predicate of `PUT /api/cart/update` and
`DELETE /api/cart/remove`: same product and size only — color is ignored. -/
def lineKey (pid : Nat) (sz : ℚ) (item : CartItem) : Bool :=
  item.productId == pid && item.size == sz

/-- `color || 'Default'` applied when pushing a new line. -/
def defaultColor (creq : Option String) : String :=
  match creq with
  | some s => if s = "" then "Default" else s
  | none => "Default"

/-- `POST /api/cart/add`.  Returns the resulting session cart and an optional
error; every early `return` in the source happens before the cart is touched,
so the error cases return the input cart. -/
def addToCart (db : List Product) (cart : Cart) (pid : Nat) (sz : ℚ)
    (creq : Option String) (qty : Nat) : Cart × Option CartError :=
  match findProduct db pid with
  | none => (cart, some .notFound)
  | some product =>
    match product.sizes.find? (fun s => s.size == sz) with
    | none => (cart, some .outOfStock)
    | some sizeOption =>
      if sizeOption.stock < qty then (cart, some .outOfStock)
      else
        match cart.items.findIdx? (addKey pid sz creq) with
        | some i =>
          match cart.items[i]? with
          | none => (cart, some .serverError)
          | some item =>
            let newQty := item.quantity + qty
            if sizeOption.stock < newQty then (cart, some .outOfStock)
            else
              (calculateTotals
                { cart with items := cart.items.set i { item with quantity := newQty } }, none)
        | none =>
          (calculateTotals
            { cart with items := cart.items ++
                [{ productId := pid, name := product.name, brand := product.brand,
                   price := effectivePrice product, originalPrice := product.price,
                   size := sz, color := defaultColor creq, quantity := qty,
                   image := primaryImage product, slug := product.slug,
                   maxStock := sizeOption.stock }] }, none)

/-- `PUT /api/cart/update`.  A quantity ≤ 0 removes the line; otherwise the new
quantity is validated against the product's current per-size stock.  The
source dereferences `product` and `sizeOption` without null checks, so a
missing product or size bucket throws — modelled as `serverError`. -/
def updateCart (db : List Product) (cart : Cart) (pid : Nat) (sz : ℚ)
    (qty : Int) : Cart × Option CartError :=
  match cart.items.findIdx? (lineKey pid sz) with
  | none => (cart, some .notFound)
  | some i =>
    if qty ≤ 0 then
      (calculateTotals { cart with items := cart.items.eraseIdx i }, none)
    else
      match findProduct db pid with
      | none => (cart, some .serverError)
      | some product =>
        match product.sizes.find? (fun s => s.size == sz) with
        | none => (cart, some .serverError)
        | some sizeOption =>
          if (sizeOption.stock : Int) < qty then (cart, some .outOfStock)
          else
            match cart.items[i]? with
            | none => (cart, some .serverError)
            | some item =>
              (calculateTotals
                { cart with items := cart.items.set i { item with quantity := qty.toNat } }, none)

/-- `DELETE /api/cart/remove`. -/
def removeCart (cart : Cart) (pid : Nat) (sz : ℚ) : Cart × Option CartError :=
  match cart.items.findIdx? (lineKey pid sz) with
  | none => (cart, some .notFound)
  | some i => (calculateTotals { cart with items := cart.items.eraseIdx i }, none)

/-! ## Order number generation (`orderSchema.pre('save')`) -/

/-- Decimal digits of `n`, most significant first; fuel-based so the kernel can
evaluate it (the first argument is fuel, always called with `fuel ≥ n`). -/
def decDigitsAux : Nat → Nat → List Nat
  | 0, n => [n]
  | fuel + 1, n => if n < 10 then [n] else decDigitsAux fuel (n / 10) ++ [n % 10]

/-- Decimal digits of `n`, most significant first. -/
def decDigits (n : Nat) : List Nat := decDigitsAux n n

/-- The character for one decimal digit. -/
def digitChar (d : Nat) : Char := Char.ofNat (48 + d)

/-- JavaScript `String(n)` for a non-negative number. -/
def natToDec (n : Nat) : String := String.mk ((decDigits n).map digitChar)

/-- JavaScript `s.padStart(w, '0')`. -/
def padStart (w : Nat) (s : String) : String :=
  String.mk (List.replicate (w - s.length) '0') ++ s

/-- The numeric value of a digit string (read back with digit value
`c.toNat - 48`). -/
def strDecValue (s : String) : Nat :=
  (s.data.map (fun c => c.toNat - 48)).foldl (fun a d => a * 10 + d) 0

/-- `orderSchema.pre('save')`: `ORD` + year + 2-digit month +
`String(count + 1).padStart(6, '0')`, where `count` is the current total
number of order documents. -/
def genOrderNumber (year month count : Nat) : String :=
  "ORD" ++ natToDec year ++ padStart 2 (natToDec month) ++ padStart 6 (natToDec (count + 1))

/-! ## Orders (`part_005` routes and `orderSchema`) -/

/-- One immutable order line, as pushed into `orderItems` at checkout. -/
structure OrderItem where
  product : Nat
  name : String
  price : ℚ
  size : ℚ
  color : String
  quantity : Nat
  image : String
deriving DecidableEq, Repr

/-- One `statusHistory` entry (the timestamp defaults in the schema and is not
modelled). -/
structure StatusEntry where
  status : String
  note : String
deriving DecidableEq, Repr

/-- The fields of an `Order` document used by checkout and cancellation. -/
structure Order where
  orderNumber : String
  user : Nat
  items : List OrderItem
  subtotal : ℚ
  shippingMethod : String
  shippingCost : ℚ
  tax : ℚ
  total : ℚ
  status : String
  statusHistory : List StatusEntry
deriving DecidableEq, Repr

/-- Errors of the checkout route: empty cart, vanished product, or a size that
no longer carries the requested quantity (the source uses one message for a
missing size bucket and for insufficient stock). -/
inductive CheckoutError where
  | emptyCart
  | productGone (name : String)
  | insufficientStock (name : String) (size : ℚ)
deriving DecidableEq, Repr

/-- `product.sizes[sizeIndex].stock -= item.quantity` where `sizeIndex` is the
first index whose `size` matches: decrement the stock of the first matching
bucket. -/
def decFirst (sz : ℚ) (qty : Nat) : List SizeOption → List SizeOption
  | [] => []
  | s :: rest =>
    if s.size == sz then { s with stock := s.stock - qty } :: rest
    else s :: decFirst sz qty rest

/-- The order-line snapshot pushed by the checkout loop. -/
def mkOrderItem (product : Product) (item : CartItem) : OrderItem :=
  { product := product.id, name := product.name, price := item.price,
    size := item.size, color := item.color, quantity := item.quantity,
    image := item.image }

/-- The per-line loop of the checkout route: for each cart line, re-fetch the
product, re-validate the size bucket, decrement its stock, bump `soldCount`,
save the product (running the `pre('save')` hook) and accumulate the order
line.  A failing line aborts with the database exactly as the earlier
iterations left it — there is no rollback in the source. -/
def processItems (db : List Product) :
    List CartItem → List OrderItem → List Product × Except CheckoutError (List OrderItem)
  | [], acc => (db, .ok acc)
  | item :: rest, acc =>
    match findProduct db item.productId with
    | none => (db, .error (.productGone item.name))
    | some product =>
      match product.sizes.find? (fun s => s.size == item.size) with
      | none => (db, .error (.insufficientStock item.name item.size))
      | some sizeOption =>
        if sizeOption.stock < item.quantity then
          (db, .error (.insufficientStock item.name item.size))
        else
          let product1 := { product with
            sizes := decFirst item.size item.quantity product.sizes,
            soldCount := product.soldCount + (item.quantity : Int) }
          processItems (saveProduct db (productPreSave product1)) rest
            (acc ++ [mkOrderItem product item])

/-- The `switch (shippingMethod)` of the checkout route: flat `19.99` for
express, `29.99` for overnight, and for every other value (including a missing
field) the standard tier — free at or above a subtotal of 100, else `9.99`. -/
def shippingCostFor (method : Option String) (subtotal : ℚ) : ℚ :=
  match method with
  | some "express" => (1999 : ℚ)/100
  | some "overnight" => (2999 : ℚ)/100
  | _ => if subtotal ≥ 100 then 0 else (999 : ℚ)/100

/-- Outcome of `POST /api/orders`: final database, the created order (if any),
the resulting session cart, and the error (if any). -/
structure CheckoutResult where
  db : List Product
  order : Option Order
  cart : Cart
  error : Option CheckoutError
deriving DecidableEq, Repr

/-- `POST /api/orders` (checkout), for an authenticated user.  `count`, `year`
and `month` feed the order-number hook.  On success the session cart is reset
to the empty literal. -/
def checkout (db : List Product) (cart : Cart) (user : Nat) (method : Option String)
    (count year month : Nat) : CheckoutResult :=
  if cart.items.isEmpty then ⟨db, none, cart, some .emptyCart⟩
  else
    match processItems db cart.items [] with
    | (db1, .error e) => ⟨db1, none, cart, some e⟩
    | (db1, .ok orderItems) =>
      let cost := shippingCostFor method cart.subtotal
      ⟨db1,
       some { orderNumber := genOrderNumber year month count,
              user := user, items := orderItems, subtotal := cart.subtotal,
              shippingMethod := method.getD "standard", shippingCost := cost,
              tax := cart.tax, total := cart.subtotal + cost + cart.tax,
              status := "confirmed",
              statusHistory := [{ status := "confirmed", note := "Order placed successfully" }] },
       emptyCart, none⟩

/-- Error of the cancellation route (`InvalidTransition` in the spec's
taxonomy; the order-not-found branch is outside this model, which takes the
order as input). -/
inductive CancelError where
  | invalidTransition
deriving DecidableEq, Repr

/-- The per-product effect of the stock-restore `findByIdAndUpdate` with
`$inc { 'sizes.$[elem].stock': quantity, soldCount: -quantity }` and
`arrayFilters [{ 'elem.size': item.size }]`.  Being an update query, it does
NOT run the `pre('save')` hook: `totalStock` is left untouched. -/
def restoreProd (item : OrderItem) (p : Product) : Product :=
  { p with
    sizes := p.sizes.map (fun s =>
      if s.size == item.size then { s with stock := s.stock + item.quantity } else s),
    soldCount := p.soldCount - (item.quantity : Int) }

/-- `Product.findByIdAndUpdate(item.product, { $inc: ... })` for one order
line: a no-op when no document has that id. -/
def restoreItem (db : List Product) (item : OrderItem) : List Product :=
  db.map (fun p => if p.id == item.product then restoreProd item p else p)

/-- Outcome of `POST /api/orders/:id/cancel`. -/
structure CancelResult where
  db : List Product
  order : Order
  error : Option CancelError
deriving DecidableEq, Repr

/-- `POST /api/orders/:id/cancel`: allowed only from `pending` or `confirmed`;
on success restore every line's stock, flip the status to `cancelled` and
append one history entry. -/
def cancelOrder (db : List Product) (order : Order) : CancelResult :=
  if order.status = "pending" ∨ order.status = "confirmed" then
    ⟨order.items.foldl restoreItem db,
     { order with status := "cancelled",
                  statusHistory := order.statusHistory ++
                    [{ status := "cancelled", note := "Cancelled by customer" }] },
     none⟩
  else ⟨db, order, some .invalidTransition⟩

/-! ## Derived predicates used by the specification claims -/

/-- Stock-sufficiency of one cart line against a database: the product exists
and its (first) matching size bucket carries at least the line's quantity. -/
def lineOK (db : List Product) (item : CartItem) : Prop :=
  ∃ p, findProduct db item.productId = some p ∧
    ∃ st, bucketStock p item.size = some st ∧ item.quantity ≤ st

/-- The net effect of a successfully processed line on its product, between a
starting and a final database state: the matching bucket's stock dropped by
the line's quantity, `soldCount` rose by it, and the save hook re-established
the `totalStock` invariant. -/
def lineProcessed (db db' : List Product) (item : CartItem) : Prop :=
  ∃ p p', findProduct db item.productId = some p ∧
    findProduct db' item.productId = some p' ∧
    bucketStock p' item.size = (bucketStock p item.size).map (fun st => st - item.quantity) ∧
    p'.soldCount = p.soldCount + (item.quantity : Int) ∧
    stockInv p'

/-- The totals invariant asserted by the spec: `subtotal = Σ price×quantity`,
the shipping tier, the 8% tax and `total = subtotal + shipping + tax`. -/
def totalsSpec (cart : Cart) : Prop :=
  cart.subtotal = cart.items.foldl (fun sum item => sum + item.price * (item.quantity : ℚ)) 0 ∧
  cart.shipping = (if cart.subtotal ≥ 100 then 0 else (999 : ℚ)/100) ∧
  cart.tax = cart.subtotal * ((8 : ℚ)/100) ∧
  cart.total = cart.subtotal + cart.shipping + cart.tax

/-- Numeric value of a big-endian digit list. -/
def decValue (ds : List Nat) : Nat :=
  ds.foldl (fun a d => a * 10 + d) 0

/-- Overwrite the `maxStock` snapshot on every cart line (used to show the
update route's stock validation never reads that snapshot). -/
def mapMaxStock (f : CartItem → Nat) (cart : Cart) : Cart :=
  { cart with items := cart.items.map (fun item => { item with maxStock := f item }) }

/-! ## Concrete fixtures (tiny catalog states for witnesses/counterexamples) -/

/-- A product with a single size bucket: size 9, 5 units in stock. -/
def nike9 : Product :=
  { id := 1, name := "Runner", brand := "Nike", slug := "runner", price := 50,
    salePrice := none, images := [], sizes := [{ size := 9, stock := 5 }],
    totalStock := 5, soldCount := 0 }

/-- A second product: size 8, a single unit in stock. -/
def nike8 : Product :=
  { id := 2, name := "Court", brand := "Nike", slug := "court", price := 80,
    salePrice := none, images := [], sizes := [{ size := 8, stock := 1 }],
    totalStock := 1, soldCount := 0 }

/-- A cart line for `nike9`, size 9, quantity 3, color Black. -/
def lineBlack : CartItem :=
  { productId := 1, name := "Runner", brand := "Nike", price := 50, originalPrice := 50,
    size := 9, color := "Black", quantity := 3, image := "img", slug := "runner",
    maxStock := 5 }

/-- The same product/size/quantity as `lineBlack` in a different color. -/
def lineWhite : CartItem := { lineBlack with color := "White" }

/-- A cart line for `nike8` asking for 2 units when only 1 is in stock. -/
def lineCourtBad : CartItem :=
  { productId := 2, name := "Court", brand := "Nike", price := 80, originalPrice := 80,
    size := 8, color := "Default", quantity := 2, image := "img", slug := "court",
    maxStock := 1 }

/-- Cart holding the same product and size twice, in two colors. -/
def cartTwoColors : Cart :=
  { items := [lineBlack, lineWhite], subtotal := 300, shipping := 0, tax := 24, total := 324 }

/-- Cart with the single line `lineBlack`. -/
def cartOneLine : Cart :=
  { items := [lineBlack], subtotal := 150, shipping := 0, tax := 12, total := 162 }

/-- Cart whose first line is fine and whose second line exceeds stock. -/
def cartPreBad : Cart :=
  { items := [lineBlack, lineCourtBad], subtotal := 310, shipping := 0, tax := (124 : ℚ)/5,
    total := 310 + (124 : ℚ)/5 }

/-- Product for the cancellation scenario: 5 units of size 9, invariant intact. -/
def flexPre : Product :=
  { id := 3, name := "Flex", brand := "Puma", slug := "flex", price := 50,
    salePrice := none, images := [], sizes := [{ size := 9, stock := 5 }],
    totalStock := 5, soldCount := 0 }

/-- Cart line buying 2 units of `flexPre` at size 9. -/
def flexLine : CartItem :=
  { productId := 3, name := "Flex", brand := "Puma", price := 50, originalPrice := 50,
    size := 9, color := "Default", quantity := 2, image := "img", slug := "flex",
    maxStock := 5 }

/-- The session cart holding `flexLine` (totals as `calculateTotals` yields). -/
def flexCart : Cart :=
  { items := [flexLine], subtotal := 100, shipping := 0, tax := 8, total := 108 }

/-- `flexPre` as checkout leaves it: 2 units sold, `totalStock` recomputed. -/
def flexMid : Product :=
  { id := 3, name := "Flex", brand := "Puma", slug := "flex", price := 50,
    salePrice := none, images := [], sizes := [{ size := 9, stock := 3 }],
    totalStock := 3, soldCount := 2 }

/-- The order line the checkout of `flexCart` records. -/
def flexOrderItem : OrderItem :=
  { product := 3, name := "Flex", price := 50, size := 9, color := "Default",
    quantity := 2, image := "img" }

/-- The confirmed order created by checking out `flexCart`. -/
def flexOrder : Order :=
  { orderNumber := "ORD202510000001", user := 7, items := [flexOrderItem],
    subtotal := 100, shippingMethod := "standard", shippingCost := 0, tax := 8,
    total := 108, status := "confirmed",
    statusHistory := [{ status := "confirmed", note := "Order placed successfully" }] }

/-- `flexMid` after cancellation restored the bucket: stock is back to 5 but
`totalStock` still reads 3. -/
def flexPost : Product :=
  { id := 3, name := "Flex", brand := "Puma", slug := "flex", price := 50,
    salePrice := none, images := [], sizes := [{ size := 9, stock := 5 }],
    totalStock := 3, soldCount := 0 }

/-- A shipped-state copy of `flexOrder` (not cancellable). -/
def flexOrderShipped : Order := { flexOrder with status := "shipped" }

/-- Product for the subtotal-120 scenario: unit price 60. -/
def dash60 : Product :=
  { id := 5, name := "Dash", brand := "Adidas", slug := "dash", price := 60,
    salePrice := none, images := [], sizes := [{ size := 10, stock := 4 }],
    totalStock := 4, soldCount := 0 }

/-- Two units of `dash60` at size 10: subtotal 120. -/
def lineDash : CartItem :=
  { productId := 5, name := "Dash", brand := "Adidas", price := 60, originalPrice := 60,
    size := 10, color := "Default", quantity := 2, image := "img", slug := "dash",
    maxStock := 4 }

/-- The session cart with subtotal 120 (fields as `calculateTotals` computes:
free standard shipping, tax `9.60 = 48/5`, total `129.60 = 648/5`). -/
def cart120 : Cart :=
  { items := [lineDash], subtotal := 120, shipping := 0, tax := (48 : ℚ)/5,
    total := 120 + 0 + (48 : ℚ)/5 }

/-! ## Helper lemmas: database lookup and save -/

theorem findProduct_id {db : List Product} {pid : Nat} {p : Product}
    (h : findProduct db pid = some p) : p.id = pid := by
  have := List.find?_some h
  simpa using this

@[simp] theorem productPreSave_id (p : Product) : (productPreSave p).id = p.id := by
  unfold productPreSave
  by_cases h : p.slug = "" <;> simp [h]

@[simp] theorem productPreSave_sizes (p : Product) : (productPreSave p).sizes = p.sizes := by
  unfold productPreSave
  by_cases h : p.slug = "" <;> simp [h]

@[simp] theorem productPreSave_soldCount (p : Product) :
    (productPreSave p).soldCount = p.soldCount := by
  unfold productPreSave
  by_cases h : p.slug = "" <;> simp [h]

theorem stockInv_productPreSave (p : Product) : stockInv (productPreSave p) := by
  unfold productPreSave stockInv
  by_cases h : p.slug = "" <;> simp [h]

theorem findProduct_save_ne {pid : Nat} {p' : Product} (db : List Product)
    (h : pid ≠ p'.id) : findProduct (saveProduct db p') pid = findProduct db pid := by
  induction db with
  | nil => rfl
  | cons q rest ih =>
    unfold findProduct saveProduct at *
    simp only [List.map_cons]
    by_cases hq : q.id = p'.id
    · rw [if_pos (by simp [hq])]
      rw [List.find?_cons_of_neg _ (by simp only [beq_iff_eq]; exact fun h' => h h'.symm),
        List.find?_cons_of_neg _ (by simp only [beq_iff_eq, hq]; exact fun h' => h h'.symm)]
      exact ih
    · rw [if_neg (by simp [hq])]
      by_cases hqp : q.id = pid
      · rw [List.find?_cons_of_pos _ (by simp [hqp]), List.find?_cons_of_pos _ (by simp [hqp])]
      · rw [List.find?_cons_of_neg _ (by simp [hqp]), List.find?_cons_of_neg _ (by simp [hqp])]
        exact ih

theorem findProduct_save_self {db : List Product} {pid : Nat} {p p' : Product}
    (h : findProduct db pid = some p) (hid : p'.id = p.id) :
    findProduct (saveProduct db p') pid = some p' := by
  have hpid : p'.id = pid := by rw [hid, findProduct_id h]
  induction db with
  | nil => simp [findProduct] at h
  | cons q rest ih =>
    unfold findProduct saveProduct at *
    by_cases hq : q.id = pid
    · rw [List.find?_cons_of_pos _ (by simp [hq])] at h
      simp only [List.map_cons]
      rw [if_pos (by simp [hq, hpid]), List.find?_cons_of_pos _ (by simp [hpid])]
    · rw [List.find?_cons_of_neg _ (by simp [hq])] at h
      simp only [List.map_cons]
      rw [if_neg (by simp only [beq_iff_eq]; exact fun h' => hq (h'.trans hpid)),
        List.find?_cons_of_neg _ (by simp [hq])]
      exact ih h

theorem mem_saveProduct {db : List Product} {p q : Product}
    (h : q ∈ saveProduct db p) : q = p ∨ q ∈ db := by
  unfold saveProduct at h
  obtain ⟨r, hr, hq⟩ := List.mem_map.mp h
  by_cases hid : r.id = p.id
  · left; rw [← hq]; simp [hid]
  · right
    rw [if_neg (by simp [hid])] at hq
    exact hq ▸ hr

theorem find?_decFirst {sizes : List SizeOption} {sz : ℚ} {so : SizeOption} (qty : Nat)
    (h : sizes.find? (fun s => s.size == sz) = some so) :
    (decFirst sz qty sizes).find? (fun s => s.size == sz) =
      some { so with stock := so.stock - qty } := by
  induction sizes with
  | nil => simp at h
  | cons s rest ih =>
    by_cases hs : s.size = sz
    · rw [List.find?_cons_of_pos _ (by simp [hs])] at h
      obtain rfl := Option.some_inj.mp h
      unfold decFirst
      rw [if_pos (by simp [hs]), List.find?_cons_of_pos _ (by simp [hs])]
    · rw [List.find?_cons_of_neg _ (by simp [hs])] at h
      unfold decFirst
      rw [if_neg (by simp [hs]), List.find?_cons_of_neg _ (by simp [hs])]
      exact ih h

/-! ## Helper lemmas: `findIdx?` and `eraseIdx` -/

theorem findIdx?_some_get {p : α → Bool} :
    ∀ {l : List α} {i : Nat}, l.findIdx? p = some i → ∃ a, l[i]? = some a ∧ p a = true := by
  intro l
  induction l with
  | nil => intro i h; simp [List.findIdx?] at h
  | cons x xs ih =>
    intro i h
    rw [List.findIdx?_cons, List.findIdx?_succ] at h
    by_cases hx : p x
    · rw [if_pos hx] at h
      obtain rfl := Option.some_inj.mp h.symm
      exact ⟨x, by simp, hx⟩
    · rw [if_neg hx] at h
      obtain ⟨j, hj, rfl⟩ := Option.map_eq_some'.mp h
      obtain ⟨a, ha, hpa⟩ := ih hj
      exact ⟨a, by simpa using ha, hpa⟩

theorem findIdx?_le_of_get {p : α → Bool} :
    ∀ {l : List α} {i : Nat} {a : α}, l[i]? = some a → p a = true →
      ∃ k, l.findIdx? p = some k ∧ k ≤ i := by
  intro l
  induction l with
  | nil => intro i a h; simp at h
  | cons x xs ih =>
    intro i a h hpa
    by_cases hx : p x
    · exact ⟨0, by rw [List.findIdx?_cons, if_pos hx], Nat.zero_le _⟩
    · match i with
      | 0 =>
        simp only [List.getElem?_cons_zero, Option.some_inj] at h
        exact absurd (h ▸ hpa) (by simpa using hx)
      | i + 1 =>
        simp only [List.getElem?_cons_succ] at h
        obtain ⟨k, hk, hki⟩ := ih h hpa
        exact ⟨k + 1, by rw [List.findIdx?_cons, if_neg hx, List.findIdx?_succ, hk]; rfl, by omega⟩

theorem findIdx?_map_comp (p : α → Bool) (g : β → α) :
    ∀ l : List β, (l.map g).findIdx? p = l.findIdx? (fun b => p (g b)) := by
  intro l
  induction l with
  | nil => rfl
  | cons x xs ih =>
    simp only [List.map_cons, List.findIdx?_cons, List.findIdx?_succ, ih]

theorem getElem?_eraseIdx_ge :
    ∀ (l : List α) (k j : Nat), k ≤ j → (l.eraseIdx k)[j]? = l[j + 1]? := by
  intro l
  induction l with
  | nil => intro k j _; simp [List.eraseIdx]
  | cons x xs ih =>
    intro k j hkj
    match k with
    | 0 => simp [List.eraseIdx]
    | k + 1 =>
      match j with
      | 0 => omega
      | j + 1 =>
        simp only [List.eraseIdx_cons_succ, List.getElem?_cons_succ]
        exact ih k j (by omega)

/-! ## Helper lemmas: stock restoration on cancel -/

@[simp] theorem restoreProd_id (item : OrderItem) (p : Product) :
    (restoreProd item p).id = p.id := rfl

theorem findProduct_restoreItem (db : List Product) (item : OrderItem) (pid : Nat) :
    findProduct (restoreItem db item) pid =
      if pid = item.product then (findProduct db pid).map (restoreProd item)
      else findProduct db pid := by
  induction db with
  | nil => by_cases h : pid = item.product <;> simp [restoreItem, findProduct, h]
  | cons q rest ih =>
    unfold findProduct restoreItem at *
    simp only [List.map_cons]
    by_cases hq : q.id = pid
    · by_cases hpid : pid = item.product
      · rw [if_pos (show (q.id == item.product) = true by simp [hq, hpid]), if_pos hpid]
        rw [List.find?_cons_of_pos (p := fun r : Product => r.id == pid) _ (by simp [hq]),
          List.find?_cons_of_pos (p := fun r : Product => r.id == pid) _ (by simp [hq])]
        rfl
      · rw [if_neg (show ¬ (q.id == item.product) = true by
            simp only [beq_iff_eq]; exact fun h' => hpid (hq ▸ h'.symm ▸ rfl)), if_neg hpid]
        rw [List.find?_cons_of_pos (p := fun r : Product => r.id == pid) _ (by simp [hq]),
          List.find?_cons_of_pos (p := fun r : Product => r.id == pid) _ (by simp [hq])]
    · by_cases hqi : q.id = item.product
      · rw [if_pos (show (q.id == item.product) = true by simp [hqi])]
        rw [List.find?_cons_of_neg (p := fun r : Product => r.id == pid) _ (by simp [hq]),
          List.find?_cons_of_neg (p := fun r : Product => r.id == pid) _ (by simp [hq])]
        exact ih
      · rw [if_neg (show ¬ (q.id == item.product) = true by simp [hqi])]
        rw [List.find?_cons_of_neg (p := fun r : Product => r.id == pid) _ (by simp [hq]),
          List.find?_cons_of_neg (p := fun r : Product => r.id == pid) _ (by simp [hq])]
        exact ih

theorem foldl_restore_spec :
    ∀ (items : List OrderItem) (db : List Product),
      items.Pairwise (fun a b => a.product ≠ b.product) →
      (∀ it ∈ items, findProduct (items.foldl restoreItem db) it.product
          = (findProduct db it.product).map (restoreProd it)) ∧
      (∀ pid, (∀ it ∈ items, it.product ≠ pid) →
          findProduct (items.foldl restoreItem db) pid = findProduct db pid) := by
  intro items
  induction items with
  | nil => intro db _; exact ⟨by simp, fun pid _ => rfl⟩
  | cons hd tl ih =>
    intro db hpw
    rw [List.pairwise_cons] at hpw
    obtain ⟨hhd, htl⟩ := hpw
    obtain ⟨ih1, ih2⟩ := ih (restoreItem db hd) htl
    constructor
    · intro it hit
      rcases List.mem_cons.mp hit with rfl | hmem
      · rw [List.foldl_cons]
        rw [ih2 it.product (fun it' hit' => (hhd it' hit').symm)]
        rw [findProduct_restoreItem, if_pos rfl]
      · rw [List.foldl_cons, ih1 it hmem, findProduct_restoreItem,
          if_neg (fun h => hhd it hmem h.symm)]
    · intro pid hpid
      rw [List.foldl_cons, ih2 pid (fun it hit => hpid it (List.mem_cons_of_mem hd hit))]
      rw [findProduct_restoreItem, if_neg (fun h => hpid hd (List.mem_cons_self hd tl) h.symm)]

/-! ## Helper lemmas: the checkout loop -/

theorem processItems_ok :
    ∀ (items : List CartItem) (db : List Product) (acc : List OrderItem),
      (∀ it ∈ items, lineOK db it) →
      items.Pairwise (fun a b => a.productId ≠ b.productId) →
      ∃ db' ois, processItems db items acc = (db', .ok (acc ++ ois)) ∧
        (∀ it ∈ items, lineProcessed db db' it) ∧
        (∀ pid, (∀ it ∈ items, it.productId ≠ pid) → findProduct db' pid = findProduct db pid) := by
  intro items
  induction items with
  | nil =>
    intro db acc _ _
    exact ⟨db, [], by simp [processItems], by simp, fun _ _ => rfl⟩
  | cons item rest ih =>
    intro db acc hok hpw
    rw [List.pairwise_cons] at hpw
    obtain ⟨hhd, htl⟩ := hpw
    obtain ⟨p, hp, st, hbk, hqty⟩ := hok item (List.mem_cons_self _ _)
    obtain ⟨so, hso, hsost⟩ := Option.map_eq_some'.mp hbk
    have hpid : p.id = item.productId := findProduct_id hp
    have hsaveid : (productPreSave
        { p with sizes := decFirst item.size item.quantity p.sizes,
                 soldCount := p.soldCount + (item.quantity : Int) }).id = item.productId := by
      rw [productPreSave_id]; exact hpid
    have hstep : processItems db (item :: rest) acc =
        processItems (saveProduct db (productPreSave
          { p with sizes := decFirst item.size item.quantity p.sizes,
                   soldCount := p.soldCount + (item.quantity : Int) })) rest
          (acc ++ [mkOrderItem p item]) := by
      simp only [processItems, hp, hso]
      rw [if_neg (by omega)]
    have hrest : ∀ it ∈ rest, lineOK (saveProduct db (productPreSave
        { p with sizes := decFirst item.size item.quantity p.sizes,
                 soldCount := p.soldCount + (item.quantity : Int) })) it := by
      intro it hit
      obtain ⟨q, hq, st', hb', hle⟩ := hok it (List.mem_cons_of_mem _ hit)
      refine ⟨q, ?_, st', hb', hle⟩
      rw [findProduct_save_ne db (by rw [hsaveid]; exact (hhd it hit).symm)]
      exact hq
    obtain ⟨db', ois, heq, hproc, hframe⟩ := ih _ (acc ++ [mkOrderItem p item]) hrest htl
    refine ⟨db', mkOrderItem p item :: ois, ?_, ?_, ?_⟩
    · rw [hstep, heq]; simp
    · intro it hit
      rcases List.mem_cons.mp hit with rfl | hmem
      · refine ⟨p, productPreSave
          { p with sizes := decFirst it.size it.quantity p.sizes,
                   soldCount := p.soldCount + (it.quantity : Int) }, hp, ?_, ?_, ?_, ?_⟩
        · rw [hframe it.productId (fun it' hit' => (hhd it' hit').symm)]
          exact findProduct_save_self hp (by rw [productPreSave_id])
        · rw [hbk]
          unfold bucketStock
          rw [productPreSave_sizes]
          show (List.find? _ (decFirst it.size it.quantity p.sizes)).map _ = _
          rw [find?_decFirst it.quantity hso]
          simp [hsost]
        · simp
        · exact stockInv_productPreSave _
      · obtain ⟨q, q', hq, hq', hrest'⟩ := hproc it hmem
        refine ⟨q, q', ?_, hq', hrest'⟩
        rw [findProduct_save_ne db (by rw [hsaveid]; exact (hhd it hmem).symm)] at hq
        exact hq
    · intro pid hpid'
      rw [hframe pid (fun it hit => hpid' it (List.mem_cons_of_mem _ hit))]
      exact findProduct_save_ne db (by rw [hsaveid]; exact (hpid' item (List.mem_cons_self _ _)).symm)

theorem processItems_append :
    ∀ (l1 : List CartItem) (db db1 : List Product) (acc ois1 : List OrderItem)
      (l2 : List CartItem),
      processItems db l1 acc = (db1, .ok ois1) →
      processItems db (l1 ++ l2) acc = processItems db1 l2 ois1 := by
  intro l1
  induction l1 with
  | nil =>
    intro db db1 acc ois1 l2 h
    simp only [processItems] at h
    injection h with h1 h2
    injection h2 with h3
    subst h1
    subst h3
    simp only [List.nil_append]
  | cons item rest ih =>
    intro db db1 acc ois1 l2 h
    cases hfp : findProduct db item.productId with
    | none =>
      simp only [processItems, hfp] at h
      exact absurd (congrArg Prod.snd h) (by simp)
    | some product =>
      cases hfs : product.sizes.find? (fun s => s.size == item.size) with
      | none =>
        simp only [processItems, hfp, hfs] at h
        exact absurd (congrArg Prod.snd h) (by simp)
      | some so =>
        by_cases hlt : so.stock < item.quantity
        · simp only [processItems, hfp, hfs, if_pos hlt] at h
          exact absurd (congrArg Prod.snd h) (by simp)
        · simp only [List.cons_append, processItems, hfp, hfs, if_neg hlt] at h ⊢
          exact ih _ _ _ _ _ h

theorem processItems_stockInv :
    ∀ (items : List CartItem) (db : List Product) (acc : List OrderItem),
      (∀ p ∈ db, stockInv p) →
      ∀ q ∈ (processItems db items acc).1, stockInv q := by
  intro items
  induction items with
  | nil => intro db acc h; simpa [processItems] using h
  | cons item rest ih =>
    intro db acc h
    cases hfp : findProduct db item.productId with
    | none => simp only [processItems, hfp]; simpa using h
    | some product =>
      cases hfs : product.sizes.find? (fun s => s.size == item.size) with
      | none => simp only [processItems, hfp, hfs]; simpa using h
      | some so =>
        by_cases hlt : so.stock < item.quantity
        · simp only [processItems, hfp, hfs, if_pos hlt]; simpa using h
        · simp only [processItems, hfp, hfs, if_neg hlt]
          refine ih _ _ ?_
          intro q hq
          rcases mem_saveProduct hq with rfl | hmem
          · exact stockInv_productPreSave _
          · exact h q hmem

/-! ## Helper lemmas: cart totals -/

theorem totalsSpec_calculateTotals (cart : Cart) : totalsSpec (calculateTotals cart) :=
  ⟨rfl, rfl, rfl, rfl⟩

/-! ## Helper lemmas: decimal digits and the order number -/

theorem decValue_append (l : List Nat) (d : Nat) :
    decValue (l ++ [d]) = decValue l * 10 + d := by
  unfold decValue
  rw [List.foldl_append]
  rfl

theorem decDigitsAux_digits_lt :
    ∀ fuel n, n ≤ fuel → ∀ d ∈ decDigitsAux fuel n, d < 10 := by
  intro fuel
  induction fuel with
  | zero =>
    intro n hn d hd
    obtain rfl : n = 0 := Nat.le_zero.mp hn
    simp only [decDigitsAux, List.mem_singleton] at hd
    omega
  | succ fuel ih =>
    intro n hn d hd
    by_cases h10 : n < 10
    · simp only [decDigitsAux, if_pos h10, List.mem_singleton] at hd
      omega
    · simp only [decDigitsAux, if_neg h10, List.mem_append, List.mem_singleton] at hd
      rcases hd with hd | rfl
      · exact ih (n / 10) (by omega) d hd
      · exact Nat.mod_lt _ (by omega)

theorem decValue_decDigitsAux :
    ∀ fuel n, n ≤ fuel → decValue (decDigitsAux fuel n) = n := by
  intro fuel
  induction fuel with
  | zero =>
    intro n hn
    obtain rfl : n = 0 := Nat.le_zero.mp hn
    rfl
  | succ fuel ih =>
    intro n hn
    by_cases h10 : n < 10
    · simp [decDigitsAux, if_pos h10, decValue]
    · rw [decDigitsAux, if_neg h10, decValue_append, ih (n / 10) (by omega)]
      omega

theorem decDigitsAux_length_le :
    ∀ (k fuel n : Nat), n ≤ fuel → n < 10 ^ k → 1 ≤ k → (decDigitsAux fuel n).length ≤ k := by
  intro k
  induction k with
  | zero => intro fuel n _ _ hk; omega
  | succ k ih =>
    intro fuel n hn hnk _
    match fuel with
    | 0 => simp [decDigitsAux]
    | fuel + 1 =>
      by_cases h10 : n < 10
      · simp [decDigitsAux, if_pos h10]
      · rw [decDigitsAux, if_neg h10]
        have hk1 : 1 ≤ k := by
          by_contra hk0
          have hkz : k = 0 := by omega
          subst hkz
          simp at hnk
          omega
        have := ih fuel (n / 10) (by omega)
          (by
            rw [Nat.div_lt_iff_lt_mul (by omega : (0 : Nat) < 10)]
            calc n < 10 ^ (k + 1) := hnk
            _ = 10 ^ k * 10 := pow_succ 10 k) hk1
        simp only [List.length_append, List.length_singleton]
        omega

theorem decDigitsAux_length_exact :
    ∀ (k fuel n : Nat), n ≤ fuel → 10 ^ k ≤ n → n < 10 ^ (k + 1) →
      (decDigitsAux fuel n).length = k + 1 := by
  intro k
  induction k with
  | zero =>
    intro fuel n hn h1 h2
    match fuel with
    | 0 =>
      have h0 : (10 : Nat) ^ 0 = 1 := pow_zero 10
      omega
    | fuel + 1 =>
      have h2' : n < 10 := by
        have hp : (10 : Nat) ^ (0 + 1) = 10 := by norm_num
        omega
      simp [decDigitsAux, if_pos h2']
  | succ k ih =>
    intro fuel n hn h1 h2
    have h10 : 10 ≤ n := le_trans (by
      calc (10 : Nat) = 10 ^ 1 := (pow_one 10).symm
      _ ≤ 10 ^ (k + 1) := Nat.pow_le_pow_right (by omega) (by omega)) h1
    match fuel with
    | 0 => omega
    | fuel + 1 =>
      rw [decDigitsAux, if_neg (by omega)]
      have hlow : 10 ^ k ≤ n / 10 := by
        rw [Nat.le_div_iff_mul_le (by omega)]
        calc 10 ^ k * 10 = 10 ^ (k + 1) := by ring
        _ ≤ n := h1
      have hhigh : n / 10 < 10 ^ (k + 1) := by
        rw [Nat.div_lt_iff_lt_mul (by omega)]
        calc n < 10 ^ (k + 2) := h2
        _ = 10 ^ (k + 1) * 10 := by ring
      have := ih fuel (n / 10) (by omega) hlow hhigh
      simp only [List.length_append, List.length_singleton]
      omega

theorem digitChar_toNat {d : Nat} (h : d < 10) : (digitChar d).toNat = 48 + d := by
  interval_cases d <;> rfl

theorem strDecValue_natToDec (n : Nat) : strDecValue (natToDec n) = n := by
  unfold strDecValue natToDec
  show decValue (((decDigits n).map digitChar).map (fun c => c.toNat - 48)) = n
  rw [List.map_map]
  have hmap : (decDigits n).map ((fun c : Char => c.toNat - 48) ∘ digitChar) = decDigits n := by
    have hid : ∀ d ∈ decDigits n, ((fun c : Char => c.toNat - 48) ∘ digitChar) d = d := by
      intro d hd
      have hlt := decDigitsAux_digits_lt n n (le_refl n) d hd
      simp [Function.comp, digitChar_toNat hlt]
    simpa using List.map_congr_left hid
  rw [hmap]
  exact decValue_decDigitsAux n n (le_refl n)

theorem foldl_decValue_replicate_zero (k : Nat) :
    List.foldl (fun a d => a * 10 + d) 0 (List.replicate k 0) = 0 := by
  induction k with
  | zero => rfl
  | succ k ih => simpa [List.replicate_succ] using ih

theorem strDecValue_padStart (w : Nat) (s : String) :
    strDecValue (padStart w s) = strDecValue s := by
  unfold strDecValue padStart
  rw [String.data_append]
  show ((List.replicate (w - s.length) '0' ++ s.data).map (fun c => c.toNat - 48)).foldl _ 0 = _
  rw [List.map_append, List.foldl_append, List.map_replicate]
  have h0 : ('0' : Char).toNat - 48 = 0 := rfl
  rw [h0, foldl_decValue_replicate_zero]

theorem padStart_length (w : Nat) (s : String) (h : s.length ≤ w) :
    (padStart w s).length = w := by
  unfold padStart
  rw [String.length_append]
  show (List.replicate (w - s.length) '0').length + s.length = w
  rw [List.length_replicate]
  omega

theorem natToDec_length (n : Nat) : (natToDec n).length = (decDigits n).length := by
  unfold natToDec
  show ((decDigits n).map digitChar).length = _
  rw [List.length_map]

/-! ## Claim C5 — cart totals invariant -/

/-- C5 counterexample: the cart produced by `DELETE /api/cart/clear` (and by
`initCart` and the post-checkout reset) has `subtotal = 0 < 100` yet
`shipping = 0`, not the `9.99` the claimed shipping rule demands, so the
totals invariant does not hold after `clear`. -/
theorem clearCart_breaks_totalsSpec : ¬ totalsSpec emptyCart := by
  intro h
  obtain ⟨-, h2, -, -⟩ := h
  norm_num [emptyCart] at h2

/-- C5 (amended): after a successful `add`, `update` or `remove` the cart
satisfies the full totals invariant (`subtotal = Σ price×quantity`, the
9.99-or-free shipping tier, 8% tax, `total = subtotal + shipping + tax`);
after `clear` all four totals are the literal 0, which satisfies the two sum
equations but not the shipping tier. -/
theorem cart_totals_invariant :
    (∀ db cart pid sz creq qty c',
      addToCart db cart pid sz creq qty = (c', none) → totalsSpec c') ∧
    (∀ db cart pid sz qty c',
      updateCart db cart pid sz qty = (c', none) → totalsSpec c') ∧
    (∀ cart pid sz c', removeCart cart pid sz = (c', none) → totalsSpec c') ∧
    (emptyCart.items = [] ∧ emptyCart.subtotal = 0 ∧ emptyCart.shipping = 0 ∧
      emptyCart.tax = 0 ∧ emptyCart.total = 0 ∧
      emptyCart.subtotal =
        emptyCart.items.foldl (fun sum item => sum + item.price * (item.quantity : ℚ)) 0 ∧
      emptyCart.total = emptyCart.subtotal + emptyCart.shipping + emptyCart.tax) := by
  refine ⟨?_, ?_, ?_, rfl, rfl, rfl, rfl, rfl, rfl, by norm_num [emptyCart]⟩
  · intro db cart pid sz creq qty c' h
    unfold addToCart at h
    dsimp only at h
    repeat' split at h
    all_goals injection h with h1 h2
    all_goals first
      | exact Option.noConfusion h2
      | (subst h1; exact totalsSpec_calculateTotals _)
  · intro db cart pid sz qty c' h
    unfold updateCart at h
    repeat' split at h
    all_goals injection h with h1 h2
    all_goals first
      | exact Option.noConfusion h2
      | (subst h1; exact totalsSpec_calculateTotals _)
  · intro cart pid sz c' h
    unfold removeCart at h
    repeat' split at h
    all_goals injection h with h1 h2
    all_goals first
      | exact Option.noConfusion h2
      | (subst h1; exact totalsSpec_calculateTotals _)

/-- C5 witness: the amended invariant evaluated on a concrete successful add. -/
theorem cart_totals_invariant_witness :
    totalsSpec (addToCart [nike9] emptyCart 1 9 (some "Black") 2).1 := by
  have h := cart_totals_invariant.1 [nike9] emptyCart 1 9 (some "Black") 2
    (addToCart [nike9] emptyCart 1 9 (some "Black") 2).1 (by rfl)
  exact h

/-! ## Claim C9 — order number format -/

/-- C9: a freshly generated order number is `ORD`, then the 4-digit year, then
the zero-padded 2-digit month, then a zero-padded counter whose numeric value
is the current order count plus one. -/
theorem orderNumber_format (y m c : Nat)
    (hy : 1000 ≤ y ∧ y ≤ 9999) (hm : 1 ≤ m ∧ m ≤ 12) (hc : c + 1 ≤ 999999) :
    ∃ ys ms cs : String,
      genOrderNumber y m c = "ORD" ++ ys ++ ms ++ cs ∧
      ys.length = 4 ∧ strDecValue ys = y ∧
      ms.length = 2 ∧ strDecValue ms = m ∧
      cs.length = 6 ∧ strDecValue cs = c + 1 := by
  refine ⟨natToDec y, padStart 2 (natToDec m), padStart 6 (natToDec (c + 1)),
    rfl, ?_, strDecValue_natToDec y, ?_, ?_, ?_, ?_⟩
  · rw [natToDec_length]
    show (decDigitsAux y y).length = 4
    refine decDigitsAux_length_exact 3 y y le_rfl ?_ ?_
    · have h3 : (10 : Nat) ^ 3 = 1000 := by norm_num
      omega
    · have h4 : (10 : Nat) ^ (3 + 1) = 10000 := by norm_num
      omega
  · refine padStart_length 2 _ ?_
    rw [natToDec_length]
    refine decDigitsAux_length_le 2 m m le_rfl ?_ (by omega)
    have h2 : (10 : Nat) ^ 2 = 100 := by norm_num
    omega
  · rw [strDecValue_padStart]
    exact strDecValue_natToDec m
  · refine padStart_length 6 _ ?_
    rw [natToDec_length]
    refine decDigitsAux_length_le 6 (c + 1) (c + 1) le_rfl ?_ (by omega)
    have h6 : (10 : Nat) ^ 6 = 1000000 := by norm_num
    omega
  · rw [strDecValue_padStart]
    exact strDecValue_natToDec (c + 1)

/-- C9 witness: the format theorem at year 2025, month 10, 41 existing orders. -/
theorem orderNumber_format_witness :
    ∃ ys ms cs : String,
      genOrderNumber 2025 10 41 = "ORD" ++ ys ++ ms ++ cs ∧
      ys.length = 4 ∧ strDecValue ys = 2025 ∧
      ms.length = 2 ∧ strDecValue ms = 10 ∧
      cs.length = 6 ∧ strDecValue cs = 41 + 1 :=
  orderNumber_format 2025 10 41 (by decide) (by decide) (by decide)

/-! ## Claim C4 — order cancellation -/

/-- C4: cancellation succeeds exactly from `pending` or `confirmed`.  On
success (for an order whose lines reference distinct products) every line's
quantity is added back onto the buckets of the recorded size, `soldCount`
drops by the same amount, other products are untouched, the status becomes
`cancelled` and exactly one history entry is appended.  From any other status
the database and the order are returned unchanged with an
`invalidTransition` error. -/
theorem cancelOrder_spec (db : List Product) (o : Order)
    (hdist : o.items.Pairwise (fun a b => a.product ≠ b.product)) :
    ((cancelOrder db o).error = none ↔ (o.status = "pending" ∨ o.status = "confirmed")) ∧
    (¬ (o.status = "pending" ∨ o.status = "confirmed") →
      cancelOrder db o = ⟨db, o, some .invalidTransition⟩) ∧
    ((o.status = "pending" ∨ o.status = "confirmed") →
      ((cancelOrder db o).order.status = "cancelled" ∧
       (cancelOrder db o).order.statusHistory =
         o.statusHistory ++ [{ status := "cancelled", note := "Cancelled by customer" }] ∧
       (∀ it ∈ o.items, findProduct (cancelOrder db o).db it.product =
         (findProduct db it.product).map (restoreProd it)) ∧
       (∀ pid, (∀ it ∈ o.items, it.product ≠ pid) →
         findProduct (cancelOrder db o).db pid = findProduct db pid))) := by
  by_cases hst : o.status = "pending" ∨ o.status = "confirmed"
  · obtain ⟨hres, hframe⟩ := foldl_restore_spec o.items db hdist
    refine ⟨⟨fun _ => hst, fun _ => ?_⟩, fun hn => absurd hst hn, fun _ => ⟨?_, ?_, ?_, ?_⟩⟩
    · unfold cancelOrder; rw [if_pos hst]
    · unfold cancelOrder; rw [if_pos hst]
    · unfold cancelOrder; rw [if_pos hst]
    · intro it hit
      have : (cancelOrder db o).db = o.items.foldl restoreItem db := by
        unfold cancelOrder; rw [if_pos hst]
      rw [this]
      exact hres it hit
    · intro pid hpid
      have : (cancelOrder db o).db = o.items.foldl restoreItem db := by
        unfold cancelOrder; rw [if_pos hst]
      rw [this]
      exact hframe pid hpid
  · refine ⟨⟨fun h => ?_, fun h => absurd h hst⟩, fun _ => ?_, fun hpos => absurd hpos hst⟩
    · exfalso
      unfold cancelOrder at h
      rw [if_neg hst] at h
      exact Option.noConfusion h
    · unfold cancelOrder; rw [if_neg hst]

/-- C4 witness: a confirmed one-line order over a one-product catalog —
cancellation succeeds, restores the bucket and decrements `soldCount`; the
same order in `shipped` status is rejected unchanged. -/
theorem cancelOrder_spec_witness :
    ((cancelOrder [flexMid] flexOrder).error = none ↔
      (flexOrder.status = "pending" ∨ flexOrder.status = "confirmed")) ∧
    ((cancelOrder [flexMid] flexOrderShipped).error = none ↔
      (flexOrderShipped.status = "pending" ∨ flexOrderShipped.status = "confirmed")) ∧
    cancelOrder [flexMid] flexOrderShipped = ⟨[flexMid], flexOrderShipped, some .invalidTransition⟩ ∧
    (∀ it ∈ flexOrder.items, findProduct (cancelOrder [flexMid] flexOrder).db it.product =
      (findProduct [flexMid] it.product).map (restoreProd it)) := by
  refine ⟨(cancelOrder_spec [flexMid] flexOrder (by simp [flexOrder])).1,
    (cancelOrder_spec [flexMid] flexOrderShipped (by simp [flexOrderShipped, flexOrder])).1,
    (cancelOrder_spec [flexMid] flexOrderShipped (by simp [flexOrderShipped, flexOrder])).2.1
      (by decide),
    ((cancelOrder_spec [flexMid] flexOrder (by simp [flexOrder])).2.2 (by decide)).2.2.1⟩

/-! ## Claim C3 — the `totalStock` invariant -/

/-- C3 counterexample: a checkout (whose `product.save()` recomputes
`totalStock` to 3) followed by a customer cancellation leaves the product with
buckets summing to 5 but `totalStock` still 3 — the `$inc` update of the
cancel route never runs the `pre('save')` hook, so the invariant is broken by
the cancellation restore. -/
theorem cancel_leaves_totalStock_stale_cex :
    stockInv flexPre ∧
    (checkout [flexPre] flexCart 7 none 0 2025 10).db = [flexMid] ∧
    (checkout [flexPre] flexCart 7 none 0 2025 10).order = some flexOrder ∧
    stockInv flexMid ∧
    cancelOrder [flexMid] flexOrder =
      ⟨[flexPost],
       { flexOrder with
         status := "cancelled",
         statusHistory := flexOrder.statusHistory ++
           [{ status := "cancelled", note := "Cancelled by customer" }] },
       none⟩ ∧
    sumStock flexPost.sizes = 5 ∧ flexPost.totalStock = 3 ∧ ¬ stockInv flexPost := by
  refine ⟨by decide, by decide, ?_, by decide, by decide, by decide, by decide, by decide⟩
  have hpr : processItems [flexPre] flexCart.items [] = ([flexMid], .ok [flexOrderItem]) := rfl
  show (checkout [flexPre] flexCart 7 none 0 2025 10).order = some flexOrder
  unfold checkout
  rw [if_neg (by decide), hpr]
  dsimp only
  rw [Option.some_inj]
  have hcost : shippingCostFor none flexCart.subtotal = 0 := by
    norm_num [shippingCostFor, flexCart]
  rw [hcost]
  have htot : flexCart.subtotal + 0 + flexCart.tax = 108 := by
    norm_num [flexCart]
  rw [htot]
  decide

/-- C3 (amended): `totalStock = Σ` per-size stock holds after every mutation
persisted through `save()` — the `pre('save')` hook itself establishes it, and
checkout (which saves each touched product) preserves it database-wide — but
NOT after the cancellation restore, whose `findByIdAndUpdate`/`$inc` bypasses
the hook and leaves `totalStock` stale. -/
theorem totalStock_invariant_on_save :
    (∀ p, stockInv (productPreSave p)) ∧
    (∀ db cart user method count year month, (∀ p ∈ db, stockInv p) →
      ∀ q ∈ (checkout db cart user method count year month).db, stockInv q) := by
  refine ⟨stockInv_productPreSave, ?_⟩
  intro db cart user method count year month hdb q hq
  have hinv := processItems_stockInv cart.items db [] hdb
  unfold checkout at hq
  by_cases he : cart.items.isEmpty
  · rw [if_pos he] at hq
    exact hdb q hq
  · rw [if_neg he] at hq
    rcases hpr : processItems db cart.items [] with ⟨db1, res⟩
    rw [hpr] at hinv hq
    cases res with
    | error e => exact hinv q hq
    | ok ois => exact hinv q hq

/-- C3 witness: the save hook restores the invariant on the stale product, and
checkout over an invariant-satisfying catalog yields an invariant-satisfying
catalog. -/
theorem totalStock_invariant_on_save_witness :
    stockInv (productPreSave flexPost) ∧ stockInv flexMid :=
  ⟨totalStock_invariant_on_save.1 flexPost,
   totalStock_invariant_on_save.2 [flexPre] flexCart 7 none 0 2025 10
     (by decide) flexMid (by decide)⟩

/-! ## Claim C8 — shipping tiers and the order total -/

/-- C8: shipping is `19.99` for express, `29.99` for overnight, and for every
other method free at subtotal ≥ 100 and `9.99` below; every created order
satisfies `total = subtotal + shippingCost + tax` with `subtotal` and `tax`
copied from the cart; and for the concrete subtotal-120 standard-shipping cart
the order has shipping 0, tax `9.60 = 48/5` and total `129.60 = 648/5`. -/
theorem shipping_and_total_spec :
    (∀ s : ℚ, shippingCostFor (some "express") s = (1999 : ℚ)/100) ∧
    (∀ s : ℚ, shippingCostFor (some "overnight") s = (2999 : ℚ)/100) ∧
    (∀ (method : Option String) (s : ℚ),
      method ≠ some "express" → method ≠ some "overnight" →
      shippingCostFor method s = if s ≥ 100 then 0 else (999 : ℚ)/100) ∧
    (∀ db cart user method count year month o,
      (checkout db cart user method count year month).order = some o →
      o.total = o.subtotal + o.shippingCost + o.tax ∧
      o.subtotal = cart.subtotal ∧ o.tax = cart.tax ∧
      o.shippingCost = shippingCostFor method cart.subtotal) ∧
    cart120 = calculateTotals { emptyCart with items := [lineDash] } ∧
    (checkout [dash60] cart120 7 none 0 2025 10).order.map (fun o => o.shippingCost) = some 0 ∧
    (checkout [dash60] cart120 7 none 0 2025 10).order.map (fun o => o.tax) = some ((48 : ℚ)/5) ∧
    (checkout [dash60] cart120 7 none 0 2025 10).order.map (fun o => o.total) = some ((648 : ℚ)/5) := by
  have hpr : processItems [dash60] cart120.items [] =
      ([{ dash60 with sizes := [{ size := 10, stock := 2 }], totalStock := 2, soldCount := 2 }],
        .ok [mkOrderItem dash60 lineDash]) := rfl
  have hch : ∀ g : Order → ℚ,
      (checkout [dash60] cart120 7 none 0 2025 10).order.map g =
        some (g
          { orderNumber := genOrderNumber 2025 10 0, user := 7,
            items := [mkOrderItem dash60 lineDash], subtotal := cart120.subtotal,
            shippingMethod := "standard",
            shippingCost := shippingCostFor none cart120.subtotal, tax := cart120.tax,
            total := cart120.subtotal + shippingCostFor none cart120.subtotal + cart120.tax,
            status := "confirmed",
            statusHistory := [{ status := "confirmed", note := "Order placed successfully" }] }) := by
    intro g
    unfold checkout
    rw [if_neg (by decide), hpr]
    rfl
  refine ⟨fun s => rfl, fun s => rfl, ?_, ?_, ?_, ?_, ?_, ?_⟩
  · intro method s h1 h2
    unfold shippingCostFor
    split
    · exact absurd rfl h1
    · exact absurd rfl h2
    · rfl
  · intro db cart user method count year month o h
    unfold checkout at h
    by_cases he : cart.items.isEmpty
    · rw [if_pos he] at h
      exact Option.noConfusion h
    · rw [if_neg he] at h
      rcases hpr' : processItems db cart.items [] with ⟨db1, res⟩
      rw [hpr'] at h
      cases res with
      | error e => exact Option.noConfusion h
      | ok ois =>
        obtain rfl := Option.some_inj.mp h.symm
        exact ⟨rfl, rfl, rfl, rfl⟩
  · norm_num [cart120, calculateTotals, emptyCart, lineDash, Cart.mk.injEq]
  · rw [hch]
    norm_num [shippingCostFor, cart120]
  · rw [hch]
    norm_num [cart120]
  · rw [hch]
    norm_num [shippingCostFor, cart120]

/-- C8 witness: the tier clause evaluated at the standard method with a
sub-threshold subtotal, and the order-total identity on the concrete
subtotal-120 checkout. -/
theorem shipping_and_total_spec_witness :
    shippingCostFor (some "standard") 50 = (if (50 : ℚ) ≥ 100 then 0 else (999 : ℚ)/100) ∧
    ∃ o, (checkout [dash60] cart120 7 none 0 2025 10).order = some o ∧
      o.total = o.subtotal + o.shippingCost + o.tax := by
  refine ⟨shipping_and_total_spec.2.2.1 (some "standard") 50 (by decide) (by decide), ?_⟩
  cases ho : (checkout [dash60] cart120 7 none 0 2025 10).order with
  | none =>
    exfalso
    have := shipping_and_total_spec.2.2.2.2.2.1
    rw [ho] at this
    exact Option.noConfusion this
  | some o =>
    exact ⟨o, rfl, (shipping_and_total_spec.2.2.2.1 [dash60] cart120 7 none 0 2025 10 o ho).1⟩

/-! ## Claim C6 — add-to-cart stock rules -/

/-- C6: with the product found, `POST /api/cart/add` answers OutOfStock exactly
when the requested size is absent, or (no matching line) its stock is below
the requested quantity, or (a line with the same product, size and color
already in the cart) its stock is below the line's quantity plus the requested
quantity; every failure leaves the cart untouched; and a success over an
existing matching line sums the quantities into that line instead of pushing a
second one. -/
theorem addToCart_stock_rules (db : List Product) (cart : Cart) (pid : Nat) (sz : ℚ)
    (creq : Option String) (qty : Nat) (p : Product)
    (hp : findProduct db pid = some p) :
    ((addToCart db cart pid sz creq qty).2 = some CartError.outOfStock ↔
      (p.sizes.find? (fun s => s.size == sz) = none ∨
       ∃ so, p.sizes.find? (fun s => s.size == sz) = some so ∧
         ((cart.items.findIdx? (addKey pid sz creq) = none ∧ so.stock < qty) ∨
          ∃ i item, cart.items.findIdx? (addKey pid sz creq) = some i ∧
            cart.items[i]? = some item ∧ so.stock < item.quantity + qty))) ∧
    (∀ e, (addToCart db cart pid sz creq qty).2 = some e →
      (addToCart db cart pid sz creq qty).1 = cart) ∧
    (∀ i item, cart.items.findIdx? (addKey pid sz creq) = some i →
      cart.items[i]? = some item →
      (addToCart db cart pid sz creq qty).2 = none →
      (addToCart db cart pid sz creq qty).1.items =
        cart.items.set i { item with quantity := item.quantity + qty }) := by
  cases hfs : p.sizes.find? (fun s => s.size == sz) with
  | none =>
    have hval : addToCart db cart pid sz creq qty = (cart, some .outOfStock) := by
      simp only [addToCart, hp, hfs]
    rw [hval]
    exact ⟨⟨fun _ => Or.inl rfl, fun _ => rfl⟩, fun e _ => rfl,
      fun i item _ _ hnone => Option.noConfusion hnone⟩
  | some so =>
    by_cases h1 : so.stock < qty
    · have hval : addToCart db cart pid sz creq qty = (cart, some .outOfStock) := by
        simp only [addToCart, hp, hfs]
        rw [if_pos h1]
      rw [hval]
      refine ⟨⟨fun _ => ?_, fun _ => rfl⟩, fun e _ => rfl,
        fun i item _ _ hnone => Option.noConfusion hnone⟩
      cases hIdx : cart.items.findIdx? (addKey pid sz creq) with
      | none => exact Or.inr ⟨so, rfl, Or.inl ⟨rfl, h1⟩⟩
      | some i0 =>
        obtain ⟨item0, hitem0, -⟩ := findIdx?_some_get hIdx
        exact Or.inr ⟨so, rfl, Or.inr ⟨i0, item0, rfl, hitem0, by omega⟩⟩
    · cases hIdx : cart.items.findIdx? (addKey pid sz creq) with
      | none =>
        have hsnd : (addToCart db cart pid sz creq qty).2 = none := by
          simp only [addToCart, hp, hfs, hIdx]
          rw [if_neg h1]
        refine ⟨⟨fun habs => ?_, fun hrhs => ?_⟩, fun e he => ?_, fun i item hi _ _ => ?_⟩
        · rw [hsnd] at habs
          exact Option.noConfusion habs
        · exfalso
          rcases hrhs with hnone | ⟨so', hso', hcase⟩
          · exact Option.noConfusion hnone
          · obtain rfl : so = so' := Option.some_inj.mp hso'
            rcases hcase with ⟨-, hlt⟩ | ⟨i', item', hi', -, -⟩
            · omega
            · exact Option.noConfusion hi'
        · rw [hsnd] at he
          exact Option.noConfusion he
        · exact Option.noConfusion hi
      | some i0 =>
        obtain ⟨item0, hitem0, -⟩ := findIdx?_some_get hIdx
        by_cases h2 : so.stock < item0.quantity + qty
        · have hval : addToCart db cart pid sz creq qty = (cart, some .outOfStock) := by
            simp only [addToCart, hp, hfs, hIdx, hitem0]
            rw [if_neg h1, if_pos h2]
          rw [hval]
          exact ⟨⟨fun _ => Or.inr ⟨so, rfl, Or.inr ⟨i0, item0, rfl, hitem0, h2⟩⟩, fun _ => rfl⟩,
            fun e _ => rfl, fun i item _ _ hnone => Option.noConfusion hnone⟩
        · have hval : addToCart db cart pid sz creq qty =
              (calculateTotals
                { cart with items :=
                    cart.items.set i0 { item0 with quantity := item0.quantity + qty } }, none) := by
            simp only [addToCart, hp, hfs, hIdx, hitem0]
            rw [if_neg h1, if_neg h2]
          rw [hval]
          refine ⟨⟨fun habs => Option.noConfusion habs, fun hrhs => ?_⟩,
            fun e he => Option.noConfusion he, fun i item hi hitem _ => ?_⟩
          · exfalso
            rcases hrhs with hnone | ⟨so', hso', hcase⟩
            · exact Option.noConfusion hnone
            · obtain rfl : so = so' := Option.some_inj.mp hso'
              rcases hcase with ⟨hni, -⟩ | ⟨i', item', hi', hitem', hlt⟩
              · exact Option.noConfusion hni
              · obtain rfl : i0 = i' := Option.some_inj.mp hi'
                rw [hitem0] at hitem'
                obtain rfl : item0 = item' := Option.some_inj.mp hitem'
                omega
          · obtain rfl : i0 = i := Option.some_inj.mp hi
            rw [hitem0] at hitem
            obtain rfl : item0 = item := Option.some_inj.mp hitem
            rfl

/-- C6 witness: the cart already holds 3 black Runners in size 9 (stock 5);
adding 3 more of the same product/size/color is refused, because 5 < 3 + 3. -/
theorem addToCart_stock_rules_witness :
    (addToCart [nike9] cartOneLine 1 9 (some "Black") 3).2 = some CartError.outOfStock :=
  (addToCart_stock_rules [nike9] cartOneLine 1 9 (some "Black") 3 nike9 rfl).1.mpr
    (Or.inr ⟨{ size := 9, stock := 5 }, rfl, Or.inr ⟨0, lineBlack, rfl, rfl, by decide⟩⟩)

/-! ## Claim C7 — cart update against live stock -/

/-- C7: for an existing `(productId, size)` line, an update with quantity ≤ 0
removes the line; a positive quantity is checked against the product's current
size-bucket stock — exceeding it yields OutOfStock with the cart unchanged,
otherwise the line's quantity is set to exactly the requested value; and the
outcome never depends on the `maxStock` snapshot stored in the line. -/
theorem updateCart_live_stock (db : List Product) (cart : Cart) (pid : Nat) (sz : ℚ)
    (qty : Int) (i : Nat) (item : CartItem)
    (hi : cart.items.findIdx? (lineKey pid sz) = some i)
    (hit : cart.items[i]? = some item) :
    (qty ≤ 0 →
      updateCart db cart pid sz qty =
        (calculateTotals { cart with items := cart.items.eraseIdx i }, none)) ∧
    (∀ p so, 0 < qty → findProduct db pid = some p →
      p.sizes.find? (fun s => s.size == sz) = some so →
      (((so.stock : Int) < qty → updateCart db cart pid sz qty = (cart, some .outOfStock)) ∧
       (qty ≤ (so.stock : Int) →
         updateCart db cart pid sz qty =
           (calculateTotals
             { cart with items := cart.items.set i { item with quantity := qty.toNat } },
            none)))) ∧
    (∀ f, (updateCart db (mapMaxStock f cart) pid sz qty).2 =
      (updateCart db cart pid sz qty).2) := by
  refine ⟨?_, ?_, ?_⟩
  · intro hq
    simp only [updateCart, hi]
    rw [if_pos hq]
  · intro p so hq hp hso
    constructor
    · intro hlt
      simp only [updateCart, hi, hp, hso]
      rw [if_neg (by omega), if_pos hlt]
    · intro hle
      simp only [updateCart, hi, hp, hso, hit]
      rw [if_neg (by omega), if_neg (by omega)]
  · intro f
    have hidx2 : (mapMaxStock f cart).items.findIdx? (lineKey pid sz) = some i := by
      unfold mapMaxStock
      dsimp only
      rw [findIdx?_map_comp]
      exact hi
    have hit2 : (mapMaxStock f cart).items[i]? = some { item with maxStock := f item } := by
      unfold mapMaxStock
      dsimp only
      rw [List.getElem?_map, hit]
      rfl
    by_cases hq : qty ≤ 0
    · simp only [updateCart, hi, hidx2]
      rw [if_pos hq, if_pos hq]
    · cases hp : findProduct db pid with
      | none =>
        simp only [updateCart, hi, hidx2, hp]
        rw [if_neg hq, if_neg hq]
      | some p =>
        cases hso : p.sizes.find? (fun s => s.size == sz) with
        | none =>
          simp only [updateCart, hi, hidx2, hp, hso]
          rw [if_neg hq, if_neg hq]
        | some so =>
          by_cases hlt : (so.stock : Int) < qty
          · simp only [updateCart, hi, hidx2, hp, hso]
            rw [if_neg hq, if_neg hq, if_pos hlt, if_pos hlt]
          · simp only [updateCart, hi, hidx2, hp, hso, hit, hit2]
            rw [if_neg hq, if_neg hq, if_neg hlt, if_neg hlt]

/-- C7 witness: the live-stock theorem evaluated on the one-line cart, with an
update to quantity 4 (within the live stock of 5) and to 0 (removal). -/
theorem updateCart_live_stock_witness :
    ((4 : Int) ≤ 0 →
      updateCart [nike9] cartOneLine 1 9 4 =
        (calculateTotals { cartOneLine with items := cartOneLine.items.eraseIdx 0 }, none)) ∧
    (∀ p so, 0 < (4 : Int) → findProduct [nike9] 1 = some p →
      p.sizes.find? (fun s => s.size == (9 : ℚ)) = some so →
      (((so.stock : Int) < 4 →
        updateCart [nike9] cartOneLine 1 9 4 = (cartOneLine, some .outOfStock)) ∧
       ((4 : Int) ≤ (so.stock : Int) →
         updateCart [nike9] cartOneLine 1 9 4 =
           (calculateTotals
             { cartOneLine with items :=
                 cartOneLine.items.set 0 { lineBlack with quantity := (4 : Int).toNat } },
            none)))) ∧
    (∀ f, (updateCart [nike9] (mapMaxStock f cartOneLine) 1 9 4).2 =
      (updateCart [nike9] cartOneLine 1 9 4).2) :=
  updateCart_live_stock [nike9] cartOneLine 1 9 4 0 lineBlack rfl rfl

/-! ## Claim C10 — update/remove ignore color and hit the first line -/

/-- C10: `update` and `remove` locate the target line by `(productId, size)`
only.  In a cart holding two lines with the same product and size but
different colors (which `add` keeps separate because its key includes the
color), the located index is at most the earlier line's and strictly below the
later line's, so the later line always survives: remove deletes the first
match and the later line is still present (shifted one slot down), and any
update outcome leaves the later line intact at its old or shifted position. -/
theorem update_remove_match_first (cart : Cart) (pid : Nat) (sz : ℚ)
    (i j : Nat) (a b : CartItem) (hij : i < j)
    (ha : cart.items[i]? = some a) (hb : cart.items[j]? = some b)
    (hapid : a.productId = pid) (hasz : a.size = sz)
    (hbpid : b.productId = pid) (hbsz : b.size = sz)
    (hcol : a.color ≠ b.color) :
    ∃ k, cart.items.findIdx? (lineKey pid sz) = some k ∧ k ≤ i ∧ k < j ∧
      removeCart cart pid sz =
        (calculateTotals { cart with items := cart.items.eraseIdx k }, none) ∧
      (cart.items.eraseIdx k)[j - 1]? = some b ∧
      (∀ db qty, (updateCart db cart pid sz qty).1.items[j]? = some b ∨
        (updateCart db cart pid sz qty).1.items[j - 1]? = some b) := by
  obtain ⟨k, hk, hki⟩ :=
    findIdx?_le_of_get (p := lineKey pid sz) ha (by simp [lineKey, hapid, hasz])
  have hkj : k < j := lt_of_le_of_lt hki hij
  have herase : (cart.items.eraseIdx k)[j - 1]? = some b := by
    have hstep := getElem?_eraseIdx_ge cart.items k (j - 1) (by omega)
    have hj : j - 1 + 1 = j := by omega
    rw [hj] at hstep
    exact hstep.trans hb
  refine ⟨k, hk, hki, hkj, ?_, herase, ?_⟩
  · unfold removeCart
    rw [hk]
  · intro db qty
    by_cases hq : qty ≤ 0
    · right
      simp only [updateCart, hk]
      rw [if_pos hq]
      exact herase
    · cases hp : findProduct db pid with
      | none =>
        left
        simp only [updateCart, hk, hp]
        rw [if_neg hq]
        exact hb
      | some p =>
        cases hso : p.sizes.find? (fun s => s.size == sz) with
        | none =>
          left
          simp only [updateCart, hk, hp, hso]
          rw [if_neg hq]
          exact hb
        | some so =>
          by_cases hlt : (so.stock : Int) < qty
          · left
            simp only [updateCart, hk, hp, hso]
            rw [if_neg hq, if_pos hlt]
            exact hb
          · cases hget : cart.items[k]? with
            | none =>
              left
              simp only [updateCart, hk, hp, hso, hget]
              rw [if_neg hq, if_neg hlt]
              exact hb
            | some itk =>
              left
              simp only [updateCart, hk, hp, hso, hget]
              rw [if_neg hq, if_neg hlt]
              show (cart.items.set k _)[j]? = some b
              rw [List.getElem?_set_ne (by omega)]
              exact hb

/-- C10 witness: the two-color cart — both routes target index 0 (the black
line) and the white line survives every outcome. -/
theorem update_remove_match_first_witness :
    ∃ k, cartTwoColors.items.findIdx? (lineKey 1 9) = some k ∧ k ≤ 0 ∧ k < 1 ∧
      removeCart cartTwoColors 1 9 =
        (calculateTotals { cartTwoColors with items := cartTwoColors.items.eraseIdx k }, none) ∧
      (cartTwoColors.items.eraseIdx k)[1 - 1]? = some lineWhite ∧
      (∀ db qty, (updateCart db cartTwoColors 1 9 qty).1.items[1]? = some lineWhite ∨
        (updateCart db cartTwoColors 1 9 qty).1.items[1 - 1]? = some lineWhite) :=
  update_remove_match_first cartTwoColors 1 9 0 1 lineBlack lineWhite (by decide)
    rfl rfl rfl rfl rfl rfl (by decide)

/-! ## Claim C1 — successful checkout -/

/-- C1 counterexample: a cart can satisfy the claim's hypotheses — every
line's product exists and every line's bucket holds at least that line's
quantity — and still fail, because two lines (same product and size,
different colors) draw from the same bucket: with stock 5 and two lines of
quantity 3, the second re-validation sees stock 2 and aborts with
InsufficientStock, creating no order and keeping the session cart. -/
theorem checkout_shared_bucket_cex :
    cartTwoColors.items = [lineBlack, lineWhite] ∧
    lineOK [nike9] lineBlack ∧ lineOK [nike9] lineWhite ∧
    lineBlack.color ≠ lineWhite.color ∧
    cartTwoColors.items ≠ [] ∧
    (checkout [nike9] cartTwoColors 7 none 0 2025 10).order = none ∧
    (checkout [nike9] cartTwoColors 7 none 0 2025 10).error =
      some (.insufficientStock "Runner" 9) ∧
    (checkout [nike9] cartTwoColors 7 none 0 2025 10).cart = cartTwoColors :=
  ⟨rfl, ⟨nike9, rfl, 5, rfl, by decide⟩, ⟨nike9, rfl, 5, rfl, by decide⟩,
    by decide, by decide, by decide, by decide, by decide⟩

/-- C1 (amended): checkout on a non-empty cart whose lines reference pairwise
distinct products, each line's product existing with at least the line's
quantity in its size bucket, succeeds: every line's bucket drops by exactly
the line's quantity, the product's `soldCount` rises by it (`totalStock` being
recomputed by the save hook), untouched products are unchanged, the order is
created `confirmed` with exactly one status-history entry, and the session
cart is reset to the all-zero empty cart. -/
theorem checkout_success (db : List Product) (cart : Cart) (user : Nat)
    (method : Option String) (count year month : Nat)
    (hne : cart.items ≠ [])
    (hdist : cart.items.Pairwise (fun x y => x.productId ≠ y.productId))
    (hok : ∀ it ∈ cart.items, lineOK db it) :
    ∃ db' o, checkout db cart user method count year month = ⟨db', some o, emptyCart, none⟩ ∧
      o.status = "confirmed" ∧
      o.statusHistory = [{ status := "confirmed", note := "Order placed successfully" }] ∧
      emptyCart.items = [] ∧ emptyCart.subtotal = 0 ∧ emptyCart.shipping = 0 ∧
      emptyCart.tax = 0 ∧ emptyCart.total = 0 ∧
      (∀ it ∈ cart.items, lineProcessed db db' it) ∧
      (∀ pid, (∀ it ∈ cart.items, it.productId ≠ pid) →
        findProduct db' pid = findProduct db pid) := by
  obtain ⟨db', ois, heq, hproc, hframe⟩ := processItems_ok cart.items db [] hok hdist
  have hcheq : checkout db cart user method count year month =
      ⟨db',
       some { orderNumber := genOrderNumber year month count, user := user,
              items := [] ++ ois, subtotal := cart.subtotal,
              shippingMethod := method.getD "standard",
              shippingCost := shippingCostFor method cart.subtotal, tax := cart.tax,
              total := cart.subtotal + shippingCostFor method cart.subtotal + cart.tax,
              status := "confirmed",
              statusHistory := [{ status := "confirmed", note := "Order placed successfully" }] },
       emptyCart, none⟩ := by
    unfold checkout
    rw [if_neg (by simp [List.isEmpty_iff, hne]), heq]
  exact ⟨db', _, hcheq, rfl, rfl, rfl, rfl, rfl, rfl, rfl, hproc, hframe⟩

/-- C1 witness: a one-line cart (3 of 5 units of size 9) checks out against
the one-product catalog. -/
theorem checkout_success_witness :
    ∃ db' o, checkout [nike9] cartOneLine 7 none 0 2025 10 = ⟨db', some o, emptyCart, none⟩ ∧
      o.status = "confirmed" ∧
      o.statusHistory = [{ status := "confirmed", note := "Order placed successfully" }] ∧
      emptyCart.items = [] ∧ emptyCart.subtotal = 0 ∧ emptyCart.shipping = 0 ∧
      emptyCart.tax = 0 ∧ emptyCart.total = 0 ∧
      (∀ it ∈ cartOneLine.items, lineProcessed [nike9] db' it) ∧
      (∀ pid, (∀ it ∈ cartOneLine.items, it.productId ≠ pid) →
        findProduct db' pid = findProduct [nike9] pid) :=
  checkout_success [nike9] cartOneLine 7 none 0 2025 10 (by decide)
    (by simp [cartOneLine])
    (by
      intro it hit
      have : it = lineBlack := by simpa [cartOneLine] using hit
      subst this
      exact ⟨nike9, rfl, 5, rfl, by decide⟩)

/-! ## Claim C2 — mid-loop stock failure is not rolled back -/

/-- C2: when every line before the offending one passes re-validation (their
products distinct) and a later line's product lacks its size bucket or has
stock below the line's quantity, checkout fails with InsufficientStock naming
that item, creates no order, leaves the session cart as it was — and the
earlier lines' stock decrements and `soldCount` increments persist in the
final database (no rollback). -/
theorem checkout_no_rollback (db : List Product) (cart : Cart) (user : Nat)
    (method : Option String) (count year month : Nat)
    (pre post : List CartItem) (bad : CartItem) (pb : Product)
    (hsplit : cart.items = pre ++ bad :: post)
    (hpre : pre ≠ [])
    (hdist : (pre ++ [bad]).Pairwise (fun x y => x.productId ≠ y.productId))
    (hok : ∀ it ∈ pre, lineOK db it)
    (hpb : findProduct db bad.productId = some pb)
    (hfail : bucketStock pb bad.size = none ∨
      ∃ st, bucketStock pb bad.size = some st ∧ st < bad.quantity) :
    ∃ db', checkout db cart user method count year month =
        ⟨db', none, cart, some (.insufficientStock bad.name bad.size)⟩ ∧
      (∀ it ∈ pre, lineProcessed db db' it) := by
  rw [List.pairwise_append] at hdist
  obtain ⟨hprePW, -, hcross⟩ := hdist
  obtain ⟨db1, ois, heq, hproc, hframe⟩ := processItems_ok pre db [] hok hprePW
  have hbad1 : findProduct db1 bad.productId = some pb := by
    rw [hframe bad.productId (fun it hit => hcross it hit bad (List.mem_singleton.mpr rfl))]
    exact hpb
  have hstep : processItems db (pre ++ bad :: post) [] =
      (db1, .error (.insufficientStock bad.name bad.size)) := by
    rw [processItems_append pre db db1 [] ([] ++ ois) (bad :: post) heq]
    rcases hfail with hnone | ⟨st, hst, hlt⟩
    · have hfs : pb.sizes.find? (fun s => s.size == bad.size) = none :=
        Option.map_eq_none'.mp hnone
      simp only [processItems, hbad1, hfs]
    · obtain ⟨so, hso, hsost⟩ := Option.map_eq_some'.mp hst
      simp only [processItems, hbad1, hso]
      rw [if_pos (by omega)]
  have hne : ¬ cart.items.isEmpty = true := by
    rw [hsplit]
    cases pre <;> simp
  refine ⟨db1, ?_, hproc⟩
  unfold checkout
  rw [if_neg hne, hsplit, hstep]

/-- C2 witness: first line takes 3 of 5 Runners (persisted), second line asks
for 2 Courts with only 1 in stock — checkout fails naming the Court line, yet
the Runner stock stays decremented. -/
theorem checkout_no_rollback_witness :
    ∃ db', checkout [nike9, nike8] cartPreBad 7 none 0 2025 10 =
        ⟨db', none, cartPreBad, some (.insufficientStock "Court" 8)⟩ ∧
      (∀ it ∈ [lineBlack], lineProcessed [nike9, nike8] db' it) :=
  checkout_no_rollback [nike9, nike8] cartPreBad 7 none 0 2025 10
    [lineBlack] [] lineCourtBad nike8 rfl (by decide) (by decide)
    (by
      intro it hit
      have : it = lineBlack := by simpa using hit
      subst this
      exact ⟨nike9, rfl, 5, rfl, by decide⟩)
    rfl (Or.inr ⟨1, rfl, by decide⟩)

end ShoeStore
